import Mathlib

/-!
Verification development for the meeting-minutes pipeline
(`app/meeting_minutes.py`): a shallow embedding of its text processing,
quality scoring, summary fallback, action-item extraction, timeline
extraction and result export, together with theorems settling the
specification's claims about them.

Python strings are modelled as `List Char` (one entry per code point, so
`len` is `List.length`).  Python floats are modelled as exact rationals
(`ℚ`); the claims proved here depend only on which formula is computed,
not on IEEE rounding.  Third-party text services (the jieba tokenizer and
NLTK's `word_tokenize` / `sent_tokenize`) are parameters of the embedding
(the `Ext` structure): every theorem quantifies over them.
-/

namespace MeetingMinutes

abbrev Str := List Char

/-- Language codes accepted by the module: `'zh'`, `'en'` and the
`'auto'` detection value used by `evaluate_text_quality`. -/
inductive Lang where
  | zh
  | en
  | auto
deriving DecidableEq, Repr

/-- String form of a language code (Python keeps them as strings). -/
def Lang.str : Lang → Str
  | .zh => "zh".data
  | .en => "en".data
  | .auto => "auto".data

/-- External text collaborators of `TextProcessor`: whether jieba is
importable (`has_jieba`), the jieba tokenizer, and NLTK's
`word_tokenize` and `sent_tokenize`.  These are third-party libraries;
they enter the embedding as parameters and all theorems hold for every
value of them. -/
structure Ext where
  hasJieba : Bool
  jieba : Str → List Str
  wordTokenize : Str → List Str
  sentTokenize : Str → List Str

/-- Default instantiation of the external collaborators, used to close
witness statements (the theorems themselves are universally quantified
over `Ext`). -/
def extDefault : Ext :=
  { hasJieba := true
    jieba := fun s => [s]
    wordTokenize := fun s => [s]
    sentTokenize := fun s => [s] }

/-- Python's `\s` / `str.strip` whitespace test on a code point
(ASCII whitespace, the C1 separators, and the Unicode space marks). -/
def pyIsSpace (c : Char) : Bool :=
  c.toNat ∈ [0x09, 0x0a, 0x0b, 0x0c, 0x0d, 0x1c, 0x1d, 0x1e, 0x1f, 0x20,
              0x85, 0xa0, 0x1680, 0x2028, 0x2029, 0x202f, 0x205f, 0x3000]
  || (0x2000 ≤ c.toNat && c.toNat ≤ 0x200a)

/-- Python `str.strip()`: drop whitespace on both ends. -/
def pyStrip (s : Str) : Str :=
  ((s.dropWhile pyIsSpace).reverse.dropWhile pyIsSpace).reverse

/-- Python `str.lower()` on the character ranges that occur in this
program (ASCII letters; CJK characters are unaffected). -/
def pyLower (s : Str) : Str :=
  s.map Char.toLower

/-- Scanning loop of `re.sub(r'\s+', ' ', text)`: emit one space at the
first character of a whitespace run (`inRun` records that the previous
character was whitespace, so the rest of the run is skipped). -/
def collapseWsGo : Str → Bool → Str
  | [], _ => []
  | c :: rest, inRun =>
    if pyIsSpace c then
      if inRun then collapseWsGo rest true
      else ' ' :: collapseWsGo rest true
    else c :: collapseWsGo rest false

/-- Replacement of every maximal whitespace run by a single space:
`re.sub(r'\s+', ' ', text)` in `TextProcessor.preprocess_text`. -/
def collapseWs (s : Str) : Str :=
  collapseWsGo s false

/-- Membership of a code point in the CJK ideograph range
`[一-龥]`. -/
def isCJK (c : Char) : Bool :=
  0x4e00 ≤ c.toNat && c.toNat ≤ 0x9fa5

/-- ASCII letter test, the `[a-zA-Z]` class. -/
def isAsciiLetterCh (c : Char) : Bool :=
  (0x41 ≤ c.toNat && c.toNat ≤ 0x5a) || (0x61 ≤ c.toNat && c.toNat ≤ 0x7a)

/-- ASCII digit test, the `\d` class restricted to ASCII as in the
source's patterns. -/
def isAsciiDigitCh (c : Char) : Bool :=
  0x30 ≤ c.toNat && c.toNat ≤ 0x39

/-- Characters kept by the zh allow-list of `preprocess_text`:
CJK ideographs, ASCII letters and digits, whitespace, and the fixed CJK
punctuation set (including the ASCII double quote and apostrophe that
appear in the character class). -/
def zhKeep (c : Char) : Bool :=
  isCJK c || isAsciiLetterCh c || isAsciiDigitCh c || pyIsSpace c
  || c ∈ ['，', '。', '！', '？', '；', '：', Char.ofNat 34, Char.ofNat 39,
          '、', '（', '）', '《', '》', '【', '】']

/-- Characters kept by the Latin allow-list of `preprocess_text`:
ASCII letters and digits, whitespace, and the fixed Latin punctuation
set (the class `[a-zA-Z0-9\s.,!?;:"'()\[\]{}]`). -/
def enKeep (c : Char) : Bool :=
  isAsciiLetterCh c || isAsciiDigitCh c || pyIsSpace c
  || c ∈ ['.', ',', '!', '?', ';', ':', Char.ofNat 34, Char.ofNat 39,
          '(', ')', '[', ']', Char.ofNat 123, Char.ofNat 125]

/-- Model of `TextProcessor.preprocess_text`: collapse whitespace runs to
one space, trim, then remove every character outside the per-language
allow-list (the `self.language == 'zh'` test sends every non-zh profile,
including `'auto'`, to the Latin branch). -/
def preprocess_text (lang : Lang) (text : Str) : Str :=
  let t := pyStrip (collapseWs text)
  match lang with
  | .zh => t.filter zhKeep
  | _ => t.filter enKeep

/-- Test for the zh sentence-terminator class `[。！？；]`. -/
def zhTerm (c : Char) : Bool :=
  c = '。' || c = '！' || c = '？' || c = '；'

/-- Splitting on maximal nonempty runs of a character class, the
behaviour of `re.split(r'[。！？；]+', text)` (empty pieces are kept,
exactly as `re.split` keeps them).  `cur` is the reversed current
piece; `inRun` marks that the previous character belonged to a
separator run, whose remaining characters are skipped. -/
def splitRunsGo (p : Char → Bool) : Str → Str → Bool → List Str
  | [], cur, _ => [cur.reverse]
  | c :: rest, cur, inRun =>
    if p c then
      if inRun then splitRunsGo p rest cur true
      else cur.reverse :: splitRunsGo p rest [] true
    else splitRunsGo p rest (c :: cur) false

/-- The pieces of `re.split(r'[...]+', text)` for the class `p`. -/
def splitRuns (p : Char → Bool) (text : Str) : List Str :=
  splitRunsGo p text [] false

/-- One attempted continuation of the paragraph separator `\n\s*\n`
after its leading `\n` was consumed: greedily take whitespace, then
backtrack to end on the last newline of that whitespace run.  Returns
the remainder after the separator, or `none` when the run holds no
further newline. -/
def paraSepRest (rest : Str) : Option Str :=
  let w := rest.takeWhile pyIsSpace
  let d := w.reverse.dropWhile (fun c => ¬ (c = '\n'))
  if d.isEmpty then none else some (rest.drop d.length)

/-- Splitting on the paragraph separator `re.split(r'\n\s*\n', text)`:
scan left to right; at a newline whose following whitespace contains
another newline, cut (consuming through the last such newline, which is
where the greedy `\s*` backtracks to).  The fuel argument is a bound on
the number of scan steps; a separator consumes at least one character,
so fuel `length + 1` is exact. -/
def splitParasGo : Nat → Str → Str → List Str
  | 0, cur, _ => [cur.reverse]
  | fuel + 1, cur, s =>
    match s with
    | [] => [cur.reverse]
    | c :: rest =>
      if c = '\n' then
        match paraSepRest rest with
        | some rest2 => cur.reverse :: splitParasGo fuel [] rest2
        | none => splitParasGo fuel ('\n' :: cur) rest
      else splitParasGo fuel (c :: cur) rest

/-- The pieces of `re.split(r'\n\s*\n', text)`. -/
def splitParas (text : Str) : List Str :=
  splitParasGo (text.length + 1) [] text

/-- Segmentation mode of `TextProcessor.segment_text`. -/
inductive SegMode where
  | paragraph
  | sentence
deriving DecidableEq

/-- Model of `TextProcessor.segment_text`: paragraph mode splits on
blank-line separators; sentence mode splits zh text on the terminator
class and delegates Latin text to NLTK's `sent_tokenize`.  Each piece of
a regex split is stripped and empty pieces are dropped. -/
def segment_text (ext : Ext) (lang : Lang) (text : Str) (mode : SegMode) : List Str :=
  match mode with
  | .paragraph =>
    ((splitParas text).map pyStrip).filter (fun p => ¬ p.isEmpty)
  | .sentence =>
    match lang with
    | .zh => ((splitRuns zhTerm text).map pyStrip).filter (fun s => ¬ s.isEmpty)
    | _ => ext.sentTokenize text

/-- Model of `TextProcessor.tokenize_words`: jieba for zh when available
(single characters otherwise), NLTK `word_tokenize` for the other
profiles. -/
def tokenize_words (ext : Ext) (lang : Lang) (text : Str) : List Str :=
  match lang with
  | .zh => if ext.hasJieba then ext.jieba text else text.map (fun c => [c])
  | _ => ext.wordTokenize text

/-- Python `round(x, 2)` on the exact-rational model of a float:
round `x * 100` to the nearest integer, ties to the even integer, and
divide back. -/
def pyRound2 (q : ℚ) : ℚ :=
  let y := q * 100
  let f : ℤ := Int.floor y
  let r : ℚ := y - (f : ℚ)
  let n : ℤ :=
    if r < 1/2 then f
    else if 1/2 < r then f + 1
    else if f % 2 = 0 then f else f + 1
  (n : ℚ) / 100

/-- Quality report returned by `TextProcessor.evaluate_text_quality`
(field names as in the source's result dict; `summary` is the verdict
string). -/
structure QualityReport where
  char_count : Nat
  word_count : Nat
  sentence_count : Nat
  paragraph_count : Nat
  readability_score : ℚ
  completeness_score : Nat
  language_detected : Str
  summary : Str
deriving DecidableEq

/-- Model of `TextProcessor.evaluate_text_quality`.  Counts are lengths
of the corresponding segmentations; readability uses the Latin formula
`100 - words/sentences` for the `'en'` profile and the CJK formula
`100 - (chars/sentences)/10` otherwise, clamped to `[0, 100]`, zero when
either count is zero; completeness is 30 / 90 / 100 by `char_count`;
the verdict compares the unrounded readability (the dict rounds the
stored score only). -/
def evaluate_text_quality (ext : Ext) (lang : Lang) (text : Str) : QualityReport :=
  let char_count := text.length
  let word_count := (tokenize_words ext lang text).length
  let sentence_count := (segment_text ext lang text .sentence).length
  let paragraph_count := (segment_text ext lang text .paragraph).length
  let readability : ℚ :=
    if sentence_count > 0 ∧ word_count > 0 then
      if lang = .en then
        max 0 (min 100 (100 - (word_count : ℚ) / (sentence_count : ℚ)))
      else
        max 0 (min 100 (100 - ((char_count : ℚ) / (sentence_count : ℚ)) / 10))
    else 0
  let completeness : Nat :=
    if char_count < 50 then 30
    else if char_count > 10000 then 90
    else 100
  let language_detected : Str :=
    if lang = .auto then
      let cjk := (text.filter isCJK).length
      let latin := (text.filter isAsciiLetterCh).length
      if cjk > latin then "zh".data else "en".data
    else lang.str
  { char_count := char_count
    word_count := word_count
    sentence_count := sentence_count
    paragraph_count := paragraph_count
    readability_score := pyRound2 readability
    completeness_score := completeness
    language_detected := language_detected
    summary := if completeness > 70 ∧ readability > 50 then "良好".data else "需要改进".data }

/-- C4: for every input text (and any language profile and external
tokenizers), `completeness_score` takes only the values 30 (when
`char_count < 50`), 90 (when `char_count > 10000`) and 100 (otherwise),
and it is a pure function of `char_count`: any two texts of equal
length receive equal completeness scores. -/
theorem C4_completeness_pure (ext : Ext) (lang : Lang) (text : Str) :
    ((evaluate_text_quality ext lang text).completeness_score
      = if text.length < 50 then 30 else if text.length > 10000 then 90 else 100)
    ∧ ∀ (ext2 : Ext) (lang2 : Lang) (text2 : Str), text2.length = text.length →
        (evaluate_text_quality ext2 lang2 text2).completeness_score
          = (evaluate_text_quality ext lang text).completeness_score := by
  constructor
  · rfl
  · intro ext2 lang2 text2 hlen
    show (if text2.length < 50 then 30 else if text2.length > 10000 then 90 else 100)
        = (if text.length < 50 then 30 else if text.length > 10000 then 90 else 100)
    rw [hlen]

/-- Witness for C4 at concrete inputs: two distinct three-character
texts have equal completeness score, and the score is 30 since the
length is below 50. -/
theorem C4_completeness_pure_witness :
    (evaluate_text_quality extDefault Lang.zh "abc".data).completeness_score = 30
    ∧ (evaluate_text_quality extDefault Lang.en "xyz".data).completeness_score
        = (evaluate_text_quality extDefault Lang.zh "abc".data).completeness_score := by
  refine ⟨?_, ?_⟩
  · rw [(C4_completeness_pure extDefault Lang.zh "abc".data).1]
    decide
  · exact (C4_completeness_pure extDefault Lang.zh "abc".data).2
      extDefault Lang.en "xyz".data (by decide)

/-!
### A backtracking regex engine for the patterns of the source

The extraction routines of `meeting_minutes.py` are driven by Python
`re` patterns.  The fragment of `re` they use — literals, ordered
alternation, greedy and lazy quantifiers, character classes, `\d`, `\s`,
the any-character dot (which excludes the newline), numbered capture
groups, the lookahead `(?=\n|$)` and the MULTILINE `$` — is embedded
here as an AST with a continuation-passing backtracking matcher, which
reproduces Python's leftmost-match / first-alternative / lazy-shortest
semantics.  A fuel argument bounds the number of quantifier iterations;
every starred subpattern of the source consumes at least one character,
so fuel `length + 1` is sufficient for the concrete evaluations. -/

inductive Re where
  | eps
  | lit (c : Char)
  | anyc
  | cls (neg : Bool) (cs : List Char)
  | digit
  | space
  | seq (a b : Re)
  | alt (a b : Re)
  | star (greedy : Bool) (a : Re)
  | opt (greedy : Bool) (a : Re)
  | grp (i : Nat) (a : Re)
  | look (a : Re)
  | eol
deriving Repr

/-- Captured groups of a match attempt: group index paired with the
captured text, most recent capture first. -/
abbrev Groups := List (Nat × Str)

/-- Character comparison, optionally case-insensitive (the
`re.IGNORECASE` flag). -/
def reChar (ci : Bool) (a c : Char) : Bool :=
  if ci then a.toLower = c.toLower else a = c

/-- Character-class membership, with negation for `[^...]`. -/
def clsMem (c : Char) (neg : Bool) (cs : List Char) : Bool :=
  if neg then ¬ (c ∈ cs) else c ∈ cs

/-- Structural size of a pattern, used to compute a sufficient fuel
budget for the matcher. -/
def reSize : Re → Nat
  | .seq a b => reSize a + reSize b + 1
  | .alt a b => reSize a + reSize b + 1
  | .star _ a => reSize a + 1
  | .opt _ a => reSize a + 1
  | .grp _ a => reSize a + 1
  | .look a => reSize a + 1
  | _ => 1

/-- The backtracking matcher.  `k` is the continuation receiving the
unread input and the captured groups; alternation tries its left branch
first, greedy quantifiers iterate before yielding, lazy quantifiers
yield before iterating — Python's strategy.  The recursion is
structural on the fuel, which every recursive call decrements; along
any single derivation path the matcher visits each pattern node once
per quantifier round, and every starred subpattern of the source
consumes input, so the budget chosen in `matchAt` below is sufficient
and exhaustion never decides a result on the inputs evaluated here. -/
def mtch (ci : Bool) : Nat → Re → Str → Groups →
    (Str → Groups → Option (Str × Groups)) → Option (Str × Groups)
  | 0, _, _, _, _ => none
  | fuel + 1, re, s, g, k =>
    match re with
    | .eps => k s g
    | .lit c =>
      match s with
      | [] => none
      | a :: rest => if reChar ci c a then k rest g else none
    | .anyc =>
      match s with
      | [] => none
      | a :: rest => if a = '\n' then none else k rest g
    | .cls neg cs =>
      match s with
      | [] => none
      | a :: rest => if clsMem a neg cs then k rest g else none
    | .digit =>
      match s with
      | [] => none
      | a :: rest => if isAsciiDigitCh a then k rest g else none
    | .space =>
      match s with
      | [] => none
      | a :: rest => if pyIsSpace a then k rest g else none
    | .seq a b => mtch ci fuel a s g (fun s2 g2 => mtch ci fuel b s2 g2 k)
    | .alt a b =>
      match mtch ci fuel a s g k with
      | some r => some r
      | none => mtch ci fuel b s g k
    | .star greedy a =>
      if greedy then
        match mtch ci fuel a s g (fun s2 g2 => mtch ci fuel (.star greedy a) s2 g2 k) with
        | some r => some r
        | none => k s g
      else
        match k s g with
        | some r => some r
        | none => mtch ci fuel a s g (fun s2 g2 => mtch ci fuel (.star greedy a) s2 g2 k)
    | .opt greedy a =>
      if greedy then
        match mtch ci fuel a s g k with
        | some r => some r
        | none => k s g
      else
        match k s g with
        | some r => some r
        | none => mtch ci fuel a s g k
    | .grp i a =>
      mtch ci fuel a s g (fun s2 g2 => k s2 ((i, s.take (s.length - s2.length)) :: g2))
    | .look a =>
      match mtch ci fuel a s g (fun s2 g2 => some (s2, g2)) with
      | some (_, g2) => k s g2
      | none => none
    | .eol =>
      match s with
      | [] => k s g
      | a :: _ => if a = '\n' then k s g else none

/-- Result of one match: the matched text (group 0), the unread
remainder, and the captured groups. -/
structure MatchRes where
  consumed : Str
  rest : Str
  groups : Groups
deriving Repr

/-- Match anchored at the start of `s`.  The fuel budget
`(reSize + 2) * (2 * length + 8)` exceeds the length of any derivation
path of the source's patterns (each quantifier round revisits at most
every node once and consumes at least one character). -/
def matchAt (ci : Bool) (re : Re) (s : Str) : Option MatchRes :=
  match mtch ci ((reSize re + 2) * (2 * s.length + 8)) re s []
      (fun rest g => some (rest, g)) with
  | some (rest, g) => some ⟨s.take (s.length - rest.length), rest, g⟩
  | none => none

/-- Model of `re.search`: try each start position left to right and
return the first match. -/
def searchGo (ci : Bool) (re : Re) : Str → Option MatchRes
  | [] => matchAt ci re []
  | s@(_ :: rest) =>
    match matchAt ci re s with
    | some r => some r
    | none => searchGo ci re rest

/-- Scanning loop of `re.findall`: leftmost non-overlapping matches;
after an empty match the scan advances one position. -/
def findallGo (ci : Bool) (re : Re) : Nat → Str → List MatchRes
  | 0, _ => []
  | posFuel + 1, s =>
    match matchAt ci re s with
    | some r =>
      if r.consumed.isEmpty then
        r :: (match s with
              | [] => []
              | _ :: rest => findallGo ci re posFuel rest)
      else r :: findallGo ci re posFuel r.rest
    | none =>
      match s with
      | [] => []
      | _ :: rest => findallGo ci re posFuel rest

/-- Model of `re.findall` returning raw matches. -/
def findall (ci : Bool) (re : Re) (s : Str) : List MatchRes :=
  findallGo ci re (s.length + 1) s

/-- Number of capture groups of a pattern (the largest group index). -/
def countGroups : Re → Nat
  | .seq a b => max (countGroups a) (countGroups b)
  | .alt a b => max (countGroups a) (countGroups b)
  | .star _ a => countGroups a
  | .opt _ a => countGroups a
  | .look a => countGroups a
  | .grp i a => max i (countGroups a)
  | _ => 0

/-- Captured text of group `i` (empty for a group that did not
participate, as `re.findall` reports it). -/
def groupGet (g : Groups) (i : Nat) : Str :=
  match g.find? (fun p => p.1 == i) with
  | some p => p.2
  | none => []

/-- Shape of a `re.findall` result element: the whole match for a
pattern without groups, the single group for one group, the tuple of
groups otherwise — uniformly as a list of strings. -/
def findallStrs (ci : Bool) (re : Re) (s : Str) : List (List Str) :=
  let n := countGroups re
  (findall ci re s).map (fun r =>
    if n = 0 then [r.consumed]
    else (List.range n).map (fun i => groupGet r.groups (i + 1)))

/-- Literal-string pattern. -/
def rstr (s : String) : Re :=
  s.data.foldr (fun c acc => Re.seq (.lit c) acc) .eps

/-- Ordered alternation of a nonempty pattern list. -/
def raltL : List Re → Re
  | [] => .eps
  | [r] => r
  | r :: rs => .alt r (raltL rs)

/-- Ordered alternation of literal strings. -/
def raltS (ss : List String) : Re :=
  raltL (ss.map rstr)

/-- Sequential composition of a pattern list. -/
def rseqL : List Re → Re
  | [] => .eps
  | [r] => r
  | r :: rs => .seq r (rseqL rs)

/-- Lazy `+` quantifier: one occurrence then a lazy star. -/
def lazyPlus (r : Re) : Re := .seq r (.star false r)

/-- Greedy `+` quantifier. -/
def greedyPlus (r : Re) : Re := .seq r (.star true r)

/-- The class `[:：]` used throughout the label patterns. -/
def colonCls : Re := .cls false [':', '：']

/-- The class `[^，。；]` of the zh patterns. -/
def zhBoundCls : Re := .cls true ['，', '。', '；']

/-- The class `[^,.]` of the en patterns. -/
def enBoundCls : Re := .cls true [',', '.']

/-- The optional tail `(?:，|。|；|）|）)?` of the zh patterns (the
closing parenthesis alternative is duplicated in the source). -/
def zhTailOpt : Re :=
  .opt true (raltL [rstr "，", rstr "。", rstr "；", rstr "）", rstr "）"])

/-- The optional tail `(?:,|.|;|\)|})?` of the en patterns; its second
alternative is the unescaped dot, which matches any character. -/
def enTailOpt : Re :=
  .opt true (raltL [.lit ',', .anyc, .lit ';', .lit ')', .lit (Char.ofNat 125)])

/-- The lookahead `(?=\n|$)` (MULTILINE `$`). -/
def lookEol : Re := .look (.alt (.lit '\n') .eol)

/-- The quantified digit `\d{1,2}` (greedy). -/
def d12 : Re := .seq .digit (.opt true .digit)

/-- The quantified digit `\d{4}`. -/
def d4 : Re := rseqL [.digit, .digit, .digit, .digit]

/-- The time expression `\d{1,2}[:：]\d{1,2}`. -/
def timeCore : Re := rseqL [d12, colonCls, d12]

/-- Obligation patterns of `TodoManager.extract_todo_items`, in table
order; the zh table is also the `patterns.get(language, ...)` fallback
for every language other than `'en'`. -/
def todoPatterns (lang : Lang) : List Re :=
  match lang with
  | .en =>
    [ rseqL [raltS ["need", "must", "should", "have to"], .grp 1 (lazyPlus .anyc),
             raltS ["complete", "handle", "solve", "follow up", "responsible"], enTailOpt],
      rseqL [raltS ["by", "assigned to"], .star true .space, .grp 1 (lazyPlus enBoundCls),
             raltS ["to", "for", "will"], .grp 2 (lazyPlus .anyc), enTailOpt],
      rseqL [raltS ["deadline", "due date"], colonCls, .star true .space,
             .grp 1 (lazyPlus enBoundCls), enTailOpt],
      rseqL [raltS ["action item", "todo item"], colonCls, .star true .space,
             .grp 1 (lazyPlus .anyc), lookEol],
      rseqL [raltS ["TODO", "todo"], colonCls, .star true .space,
             .grp 1 (lazyPlus .anyc), lookEol] ]
  | _ =>
    [ rseqL [raltS ["需要", "要", "必须", "得", "应该"], .grp 1 (lazyPlus .anyc),
             raltS ["完成", "处理", "解决", "跟进", "负责"], zhTailOpt],
      rseqL [.alt (rstr "由") (.seq (rstr "由") (.star false .anyc)),
             .grp 1 (lazyPlus zhBoundCls), raltS ["负责", "跟进", "处理"],
             .grp 2 (lazyPlus .anyc), zhTailOpt],
      rseqL [raltS ["截止", "截至", "期限"], colonCls, .star true .space,
             .grp 1 (lazyPlus zhBoundCls), zhTailOpt],
      rseqL [raltS ["行动项", "待办事项"], colonCls, .star true .space,
             .grp 1 (lazyPlus .anyc), lookEol],
      rseqL [raltS ["TODO", "todo"], colonCls, .star true .space,
             .grp 1 (lazyPlus .anyc), lookEol] ]

/-- Assignee patterns of `TodoManager._extract_assignee`, in table
order (zh table is the fallback). -/
def assigneePatterns (lang : Lang) : List Re :=
  match lang with
  | .en =>
    [ rseqL [rstr "by", .star true .space, .grp 1 (lazyPlus enBoundCls),
             raltS ["to", "for", "will"]],
      rseqL [rstr "assigned to", .star true .space, .grp 1 (lazyPlus enBoundCls), enTailOpt],
      rseqL [rstr "responsible person", colonCls, .star true .space,
             .grp 1 (lazyPlus enBoundCls), enTailOpt] ]
  | _ =>
    [ rseqL [rstr "由", .star true .space, .grp 1 (lazyPlus zhBoundCls),
             .star true .space, raltS ["负责", "跟进", "处理"]],
      rseqL [.grp 1 (lazyPlus zhBoundCls), .star true .space, rstr "负责"],
      rseqL [rstr "责任人", colonCls, .star true .space,
             .grp 1 (lazyPlus zhBoundCls), zhTailOpt] ]

/-- Due-date patterns of `TodoManager._extract_due_date`, in table
order (zh table is the fallback). -/
def dueDatePatterns (lang : Lang) : List Re :=
  match lang with
  | .en =>
    [ rseqL [raltS ["deadline", "due date"], colonCls, .star true .space,
             .grp 1 (lazyPlus enBoundCls), enTailOpt],
      rseqL [rstr "due by", .star true .space, .grp 1 (lazyPlus enBoundCls), enTailOpt],
      raltS ["next Monday", "next Tuesday", "next Wednesday", "next Thursday",
             "next Friday", "next Saturday", "next Sunday", "next week"],
      raltS ["tomorrow", "day after tomorrow"],
      rseqL [d4, .cls false ['-', '/'], d12, .cls false ['-', '/'], d12],
      rseqL [d12, .cls false ['-', '/'], d12, .cls false ['-', '/'], d4] ]
  | _ =>
    [ rseqL [raltS ["截止", "截至", "期限"], colonCls, .star true .space,
             .grp 1 (lazyPlus zhBoundCls), zhTailOpt],
      rseqL [raltS ["在", "于"], .star true .space, .grp 1 (lazyPlus zhBoundCls),
             .star true .space, raltS ["之前", "前"], rstr "完成"],
      raltS ["下周一", "下周二", "下周三", "下周四", "下周五", "下周六", "下周日", "下周"],
      raltS ["明天", "后天", "大后天"],
      rseqL [d4, rstr "年", d12, rstr "月", d12, rstr "日"],
      rseqL [d12, rstr "月", d12, rstr "日"] ]

/-- High-priority keyword table of `TodoManager._evaluate_priority`
(zh is the `dict.get` fallback). -/
def highPriorityKeywords (lang : Lang) : List Str :=
  match lang with
  | .en => ["urgent", "important", "asap", "immediately", "now", "must",
            "priority", "critical"].map String.data
  | _ => ["紧急", "重要", "尽快", "立即", "马上", "必须", "优先", "关键"].map String.data

/-- Low-priority keyword table of `TodoManager._evaluate_priority`. -/
def lowPriorityKeywords (lang : Lang) : List Str :=
  match lang with
  | .en => ["optional", "secondary", "not urgent", "later", "future",
            "when convenient"].map String.data
  | _ => ["可选", "次要", "不急", "后续", "将来", "有空", "方便时"].map String.data

/-- Substring containment, the Python `in` operator on strings. -/
def strContains (hay needle : Str) : Bool :=
  hay.tails.any (fun t => needle.isPrefixOf t)

/-- Model of `TodoManager._evaluate_priority`: 3 when a high-priority
keyword occurs case-insensitively, else 1 when a low-priority keyword
occurs, else 2 (the source loops over the tables and returns at the
first hit, which is the same value as this any-based form). -/
def evaluate_priority (text : Str) (lang : Lang) : Nat :=
  let text_lower := pyLower text
  if (highPriorityKeywords lang).any (fun kw => strContains text_lower (pyLower kw)) then 3
  else if (lowPriorityKeywords lang).any (fun kw => strContains text_lower (pyLower kw)) then 1
  else 2

/-- Pattern loop of `TodoManager._extract_assignee`: first pattern with
a search hit wins, returning its stripped group 1; empty string when no
pattern matches. -/
def assigneeGo (text : Str) : List Re → Str
  | [] => []
  | p :: ps =>
    match searchGo true p text with
    | some r => pyStrip (groupGet r.groups 1)
    | none => assigneeGo text ps

/-- Model of `TodoManager._extract_assignee`. -/
def extract_assignee (text : Str) (lang : Lang) : Str :=
  assigneeGo text (assigneePatterns lang)

/-- Pattern loop of `TodoManager._extract_due_date`: first pattern with
a search hit wins; group 1 is returned when the pattern has capture
groups (`match.groups()` nonempty), the whole match otherwise, stripped
and otherwise verbatim. -/
def dueDateGo (text : Str) : List Re → Option Str
  | [] => none
  | p :: ps =>
    match searchGo true p text with
    | some r =>
      if countGroups p = 0 then some (pyStrip r.consumed)
      else some (pyStrip (groupGet r.groups 1))
    | none => dueDateGo text ps

/-- Model of `TodoManager._extract_due_date`. -/
def extract_due_date (text : Str) (lang : Lang) : Option Str :=
  dueDateGo text (dueDatePatterns lang)

/-- Action item record of `TodoManager.extract_todo_items` (field names
as in the source's dict). -/
structure TodoItem where
  description : Str
  assignee : Str
  priority : Nat
  due_date : Option Str
  status : Str
  extracted_from : Str
deriving DecidableEq, Repr

/-- Candidate description of one `re.findall` element: the stripped
string for a single value, the non-empty groups joined with a space and
stripped for a tuple. -/
def candDescription (m : List Str) : Str :=
  match m with
  | [g] => pyStrip g
  | gs => pyStrip (List.intercalate [' '] (gs.filter (fun x => ¬ x.isEmpty)))

/-- Candidate pass of `TodoManager.extract_todo_items`: all matches of
all obligation patterns in table order (pattern order outer, match
order inner, `re.IGNORECASE | re.MULTILINE`), kept when the description
is non-empty of length `> 3`, each built into an item with derived
assignee, due date and priority. -/
def todoItemsPre (text : Str) (lang : Lang) : List TodoItem :=
  (((todoPatterns lang).map (fun p => (findallStrs true p text).map candDescription)).join).filterMap
    (fun description =>
      if ¬ description.isEmpty ∧ description.length > 3 then
        some { description := description
               assignee := extract_assignee description lang
               priority := evaluate_priority description lang
               due_date := extract_due_date description lang
               status := "pending".data
               extracted_from := description.take 100 }
      else none)

/-- Deduplication key of an action item: lower-cased, stripped
description. -/
def dedupKey (it : TodoItem) : Str :=
  pyStrip (pyLower it.description)

/-- Deduplication loop of `TodoManager.extract_todo_items`: keep an
item when its key has not been seen, in input order. -/
def dedupTodosGo (seen : List Str) : List TodoItem → List TodoItem
  | [] => []
  | it :: rest =>
    if dedupKey it ∈ seen then dedupTodosGo seen rest
    else it :: dedupTodosGo (dedupKey it :: seen) rest

/-- Model of `TodoManager.extract_todo_items`: candidate pass followed
by first-occurrence deduplication. -/
def extract_todo_items (text : Str) (lang : Lang) : List TodoItem :=
  dedupTodosGo [] (todoItemsPre text lang)

/-!
### Timeline extraction (`TimelineVisualizer.extract_timeline_data`)
-/

/-- The six time-expression patterns of `extract_timeline_data`, in
table order (they are applied without flags, so matching is
case-sensitive).  Patterns with two groups produce tuple matches. -/
def timePatterns : List Re :=
  [ rseqL [.grp 1 timeCore, .star true .space, .opt true (raltS ["左右", "许", "时", "分"])],
    rseqL [.grp 1 timeCore, .cls false ['～', '~', '-'], .grp 2 timeCore],
    rseqL [.grp 1 (rseqL [d4, .cls false ['-', '/'], d12, .cls false ['-', '/'], d12]),
           greedyPlus .space, .grp 2 timeCore],
    rseqL [.grp 1 (rseqL [d4, rstr "年", d12, rstr "月", d12, rstr "日"]), .star true .space,
           .opt true (raltS ["上午", "下午"]), .star true .space, .grp 2 timeCore],
    rseqL [raltS ["接下来", "随后", "然后", "接着"], .star true .space, .opt true (rstr "的"),
           .star true .space, .grp 1 (greedyPlus .digit), .star true .space,
           raltS ["分钟", "小时", "天", "周", "月", "年"]],
    rseqL [raltS ["之前", "以前", "前"], .star true .space, .grp 1 (greedyPlus .digit),
           .star true .space, raltS ["分钟", "小时", "天", "周", "月", "年"]] ]

/-- Importance-keyword table of the no-explicit-time branch (zh is the
`dict.get` fallback). -/
def importanceKeywords (lang : Lang) : List Str :=
  match lang with
  | .en => ["decide", "resolution", "agree", "approve", "confirm", "arrange",
            "plan"].map String.data
  | _ => ["决定", "决议", "达成", "同意", "通过", "确认", "安排", "计划"].map String.data

/-- Accumulated `time_matches` of one sentence: the findall results of
every time pattern, concatenated in pattern order. -/
def timeMatchesOf (sentence : Str) : List (List Str) :=
  (timePatterns.map (fun p => findallStrs false p sentence)).join

/-- The apostrophe character, written by code point. -/
def apos : Char := Char.ofNat 39

/-- Python `str()` of a findall element: a single string is unchanged; a
group tuple is rendered as its tuple repr with quoted components. -/
def pyStrOfMatch (m : List Str) : Str :=
  match m with
  | [g] => g
  | gs => '(' :: (List.intercalate ", ".data (gs.map (fun g => apos :: (g ++ [apos])))) ++ [')']

/-- Timeline event record of `extract_timeline_data` (field names as in
the source's dict). -/
structure TLItem where
  time : Str
  event : Str
  description : Str
  sentence_index : Nat
  has_time : Bool
deriving DecidableEq, Repr

/-- Python `list.index`: position of the first occurrence. -/
def pyIndexOf (l : List Str) (s : Str) : Nat :=
  match l with
  | [] => 0
  | x :: rest => if x = s then 0 else pyIndexOf rest s + 1

/-- Title of an explicit-time event: the sentence truncated to 50
characters and stripped; the source then re-truncates to 47 characters
with an ellipsis when the result is longer than 50 characters (a branch
transcribed here as written, although the previous truncation makes it
unreachable). -/
def tlTitle (sentence : Str) : Str :=
  let event_title := pyStrip (sentence.take 50)
  if event_title.length > 50 then event_title.take 47 ++ "...".data else event_title

/-- Event emitted for one sentence, if any: an explicit time match
produces an event from the first match; otherwise a first
importance-keyword hit produces one synthetic event labelled with
`cnt`, the running count of already-emitted events; otherwise nothing.
`sentence_index` is `sentences.index(sentence)` — the index of the
first occurrence. -/
def tlEmit (lang : Lang) (sentences : List Str) (cnt : Nat) (sentence : Str) : Option TLItem :=
  match timeMatchesOf sentence with
  | tm :: _ =>
    some { time := pyStrOfMatch tm
           event := tlTitle sentence
           description := sentence
           sentence_index := pyIndexOf sentences sentence
           has_time := true }
  | [] =>
    if (importanceKeywords lang).any (fun kw => strContains (pyLower sentence) (pyLower kw)) then
      some { time := "事件_".data ++ (Nat.repr cnt).data
             event := pyStrip (sentence.take 50)
             description := sentence
             sentence_index := pyIndexOf sentences sentence
             has_time := false }
    else none

/-- Loop body of `extract_timeline_data`: append the sentence's event,
when there is one, to the accumulator (whose length is the running
event count used for synthetic labels). -/
def tlStep (lang : Lang) (sentences : List Str) (acc : List TLItem) (sentence : Str) :
    List TLItem :=
  match tlEmit lang sentences acc.length sentence with
  | some it => acc ++ [it]
  | none => acc

/-- Model of `TimelineVisualizer.extract_timeline_data`: segment into
sentences, run the loop in sentence order, then stable-sort by
`sentence_index` (Python's `list.sort` is stable; `insertionSort` on a
total preorder is the stable sort). -/
def extract_timeline_data (ext : Ext) (text : Str) (lang : Lang) : List TLItem :=
  let sentences := segment_text ext lang text .sentence
  let items := sentences.foldl (tlStep lang sentences) []
  List.insertionSort (fun a b => a.sentence_index ≤ b.sentence_index) items

/-!
### Order properties of the timeline (claim C2)
-/

/-- Recursion form of the timeline loop: the items appended by
`tlStep` along a sentence list, with `cnt` the running count of
already-emitted events (the length of the Python accumulator). -/
def tlGen (lang : Lang) (sentences : List Str) : List Str → Nat → List TLItem
  | [], _ => []
  | s :: rest, cnt =>
    match tlEmit lang sentences cnt s with
    | some it => it :: tlGen lang sentences rest (cnt + 1)
    | none => tlGen lang sentences rest cnt

/-- The left fold of `tlStep` is the accumulator followed by the
generated items, the count starting at the accumulator's length. -/
theorem foldl_tlStep (lang : Lang) (sentences : List Str) :
    ∀ (todo : List Str) (acc : List TLItem),
      todo.foldl (tlStep lang sentences) acc = acc ++ tlGen lang sentences todo acc.length := by
  intro todo
  induction todo with
  | nil => intro acc; simp [tlGen]
  | cons s rest ih =>
    intro acc
    rw [List.foldl_cons]
    cases h : tlEmit lang sentences acc.length s with
    | some it =>
      simp only [tlStep, tlGen, h]
      rw [ih]
      simp [List.append_assoc]
    | none =>
      simp only [tlStep, tlGen, h]
      exact ih acc

/-- Every emitted event carries the `list.index` of its sentence. -/
theorem tlEmit_index {lang : Lang} {sentences : List Str} {cnt : Nat} {s : Str} {it : TLItem}
    (h : tlEmit lang sentences cnt s = some it) :
    it.sentence_index = pyIndexOf sentences s := by
  unfold tlEmit at h
  split at h
  · cases h
    rfl
  · split at h
    · cases h
      rfl
    · cases h

/-- Indices of the generated items form a sublist of the indices of the
scanned sentences (each sentence emits at most one event, in scan
order). -/
theorem tlGen_indices_sublist (lang : Lang) (sentences : List Str) :
    ∀ (todo : List Str) (cnt : Nat),
      ((tlGen lang sentences todo cnt).map (fun it => it.sentence_index)).Sublist
        (todo.map (pyIndexOf sentences)) := by
  intro todo
  induction todo with
  | nil => intro cnt; simp [tlGen]
  | cons s rest ih =>
    intro cnt
    cases h : tlEmit lang sentences cnt s with
    | some it =>
      simp only [tlGen, h, List.map_cons]
      rw [tlEmit_index h]
      exact (ih (cnt + 1)).cons₂ _
    | none =>
      simp only [tlGen, h, List.map_cons]
      exact (ih cnt).cons _

/-- On a duplicate-free list, `list.index` maps the elements, in order,
to `0, 1, 2, ...`. -/
theorem map_pyIndexOf_eq_range : ∀ (l : List Str), l.Nodup →
    l.map (pyIndexOf l) = List.range l.length := by
  intro l
  induction l with
  | nil => intro _; simp
  | cons a tl ih =>
    intro hnd
    rw [List.nodup_cons] at hnd
    obtain ⟨ha, htl⟩ := hnd
    have hhead : pyIndexOf (a :: tl) a = 0 := by simp [pyIndexOf]
    have htail : tl.map (pyIndexOf (a :: tl)) = (tl.map (pyIndexOf tl)).map Nat.succ := by
      rw [List.map_map]
      refine List.map_congr_left ?_
      intro x hx
      have hne : ¬ (a = x) := fun hax => ha (hax ▸ hx)
      simp [pyIndexOf, hne]
    rw [List.map_cons, hhead, htail, ih htl, List.length_cons, List.range_succ_eq_map]

instance : IsTotal TLItem (fun a b => a.sentence_index ≤ b.sentence_index) :=
  ⟨fun a b => Nat.le_total a.sentence_index b.sentence_index⟩

instance : IsTrans TLItem (fun a b => a.sentence_index ≤ b.sentence_index) :=
  ⟨fun _ _ _ h1 h2 => Nat.le_trans h1 h2⟩

/-- C2 (amended): the timeline produced by `extract_timeline_data` is
always sorted by `sentence_index` ascending, and when the segmented
sentences are pairwise distinct the indices are strictly increasing.
(The strictness fails for repeated identical sentences, which all
receive the index of the first occurrence — see the counterexample.) -/
theorem C2_timeline_sorted (ext : Ext) (lang : Lang) (text : Str) :
    (extract_timeline_data ext text lang).Sorted
      (fun a b => a.sentence_index ≤ b.sentence_index)
    ∧ ((segment_text ext lang text .sentence).Nodup →
        (extract_timeline_data ext text lang).Pairwise
          (fun a b => a.sentence_index < b.sentence_index)) := by
  constructor
  · exact List.sorted_insertionSort _ _
  · intro hnd
    have hitems :
        (segment_text ext lang text .sentence).foldl
            (tlStep lang (segment_text ext lang text .sentence)) []
          = tlGen lang (segment_text ext lang text .sentence)
              (segment_text ext lang text .sentence) 0 := by
      rw [foldl_tlStep]
      simp
    have hsub := tlGen_indices_sublist lang (segment_text ext lang text .sentence)
      (segment_text ext lang text .sentence) 0
    rw [map_pyIndexOf_eq_range _ hnd] at hsub
    have hlt : (tlGen lang (segment_text ext lang text .sentence)
        (segment_text ext lang text .sentence) 0).Pairwise
          (fun a b => a.sentence_index < b.sentence_index) :=
      List.pairwise_map.mp (List.Pairwise.sublist hsub (List.pairwise_lt_range _))
    have hne : (tlGen lang (segment_text ext lang text .sentence)
        (segment_text ext lang text .sentence) 0).Pairwise
          (fun a b => a.sentence_index ≠ b.sentence_index) :=
      hlt.imp (fun h => Nat.ne_of_lt h)
    have hperm := List.perm_insertionSort
      (fun a b : TLItem => a.sentence_index ≤ b.sentence_index)
      ((segment_text ext lang text .sentence).foldl
        (tlStep lang (segment_text ext lang text .sentence)) [])
    have hne2 : (extract_timeline_data ext text lang).Pairwise
        (fun a b => a.sentence_index ≠ b.sentence_index) := by
      unfold extract_timeline_data
      exact (hperm.pairwise_iff (fun h => Ne.symm h)).mpr (hitems ▸ hne)
    have hle : (extract_timeline_data ext text lang).Pairwise
        (fun a b => a.sentence_index ≤ b.sentence_index) :=
      List.sorted_insertionSort _ _
    exact (hle.and hne2).imp (fun h => Nat.lt_of_le_of_ne h.1 h.2)

/-- Witness for C2 at a concrete input with two distinct sentences,
each carrying a time expression: the two events appear with strictly
increasing indices. -/
theorem C2_timeline_sorted_witness :
    (segment_text extDefault Lang.zh "会议10:30开始。下午2:30结束".data .sentence).Nodup
    ∧ (extract_timeline_data extDefault "会议10:30开始。下午2:30结束".data Lang.zh).Pairwise
        (fun a b => a.sentence_index < b.sentence_index) :=
  ⟨by decide, (C2_timeline_sorted extDefault Lang.zh "会议10:30开始。下午2:30结束".data).2 (by decide)⟩

/-- Counterexample to C2 as stated: with the sentence repeated twice,
both events receive `sentences.index(sentence) = 0`, so the indices are
not strictly increasing (no uniqueness). -/
theorem C2_counterexample :
    ((extract_timeline_data extDefault "会议10:30开始。会议10:30开始".data Lang.zh).map
        (fun it => it.sentence_index)) = [0, 0]
    ∧ ¬ (extract_timeline_data extDefault "会议10:30开始。会议10:30开始".data Lang.zh).Pairwise
        (fun a b => a.sentence_index < b.sentence_index) := by
  constructor
  · decide
  · decide

/-!
### Deduplication properties (claim C3) and priority (claim C5)
-/

/-- The deduplication pass returns a sublist of its input (survivors
keep their first-produced order). -/
theorem dedupGo_sublist : ∀ (l : List TodoItem) (seen : List Str),
    (dedupTodosGo seen l).Sublist l := by
  intro l
  induction l with
  | nil => intro seen; simp [dedupTodosGo]
  | cons it rest ih =>
    intro seen
    unfold dedupTodosGo
    split
    · exact (ih seen).cons it
    · exact (ih _).cons₂ it

/-- Every survivor's key is fresh with respect to `seen`, and the
survivor is the first input item bearing its key. -/
theorem dedupGo_first : ∀ (l : List TodoItem) (seen : List Str) (it : TodoItem),
    it ∈ dedupTodosGo seen l →
      dedupKey it ∉ seen
      ∧ l.find? (fun c => dedupKey c == dedupKey it) = some it := by
  intro l
  induction l with
  | nil => intro seen it h; simp [dedupTodosGo] at h
  | cons c rest ih =>
    intro seen it h
    unfold dedupTodosGo at h
    by_cases hc : dedupKey c ∈ seen
    · rw [if_pos hc] at h
      obtain ⟨hnotseen, hfind⟩ := ih seen it h
      refine ⟨hnotseen, ?_⟩
      have hne : (dedupKey c == dedupKey it) = false := by
        rw [beq_eq_false_iff_ne]
        intro hb
        exact hnotseen (hb ▸ hc)
      simp only [List.find?_cons, hne]
      exact hfind
    · rw [if_neg hc] at h
      rcases List.mem_cons.mp h with rfl | hmem
      · refine ⟨hc, ?_⟩
        simp only [List.find?_cons, beq_self_eq_true]
      · obtain ⟨hnotseen, hfind⟩ := ih (dedupKey c :: seen) it hmem
        have hneck : dedupKey it ≠ dedupKey c := by
          intro hEq
          exact hnotseen (hEq ▸ List.mem_cons_self _ _)
        refine ⟨fun hs => hnotseen (List.mem_cons_of_mem _ hs), ?_⟩
        have hne : (dedupKey c == dedupKey it) = false := by
          rw [beq_eq_false_iff_ne]
          exact fun hb => hneck hb.symm
        simp only [List.find?_cons, hne]
        exact hfind

/-- No two survivors of the deduplication pass share a key. -/
theorem dedupGo_pairwise : ∀ (l : List TodoItem) (seen : List Str),
    (dedupTodosGo seen l).Pairwise (fun a b => dedupKey a ≠ dedupKey b) := by
  intro l
  induction l with
  | nil => intro seen; simp [dedupTodosGo]
  | cons c rest ih =>
    intro seen
    unfold dedupTodosGo
    split
    · exact ih seen
    · refine List.Pairwise.cons ?_ (ih _)
      intro b hb hEq
      exact (dedupGo_first rest _ b hb).1 (hEq ▸ List.mem_cons_self _ _)

/-- Every input key either was already seen or appears among the
survivors. -/
theorem dedupGo_covers : ∀ (l : List TodoItem) (seen : List Str) (c : TodoItem),
    c ∈ l →
      dedupKey c ∈ seen ∨ ∃ it ∈ dedupTodosGo seen l, dedupKey it = dedupKey c := by
  intro l
  induction l with
  | nil => intro seen c hc; cases hc
  | cons d rest ih =>
    intro seen c hc
    unfold dedupTodosGo
    rcases List.mem_cons.mp hc with rfl | hmem
    · by_cases hd : dedupKey c ∈ seen
      · exact Or.inl hd
      · right
        rw [if_neg hd]
        exact ⟨c, List.mem_cons_self _ _, rfl⟩
    · by_cases hd : dedupKey d ∈ seen
      · rw [if_pos hd]
        exact ih seen c hmem
      · rw [if_neg hd]
        rcases ih (dedupKey d :: seen) c hmem with hseen | ⟨it, hit, hkey⟩
        · rcases List.mem_cons.mp hseen with heq | hs
          · exact Or.inr ⟨d, List.mem_cons_self _ _, heq.symm⟩
          · exact Or.inl hs
        · exact Or.inr ⟨it, List.mem_cons_of_mem _ hit, hkey⟩

/-- C3: in the sequence returned by `extract_todo_items`, no two items
share the lower-cased, trimmed description key; the output is a sublist
of the candidate sequence (pattern order outer, match order inner), so
survivors keep the order in which their candidates were first produced;
each survivor is the first candidate bearing its key; and every
candidate's key is represented. -/
theorem C3_todo_dedup (text : Str) (lang : Lang) :
    (extract_todo_items text lang).Pairwise (fun a b => dedupKey a ≠ dedupKey b)
    ∧ (extract_todo_items text lang).Sublist (todoItemsPre text lang)
    ∧ (∀ it ∈ extract_todo_items text lang,
        (todoItemsPre text lang).find? (fun c => dedupKey c == dedupKey it) = some it)
    ∧ (∀ c ∈ todoItemsPre text lang,
        ∃ it ∈ extract_todo_items text lang, dedupKey it = dedupKey c) := by
  refine ⟨dedupGo_pairwise _ _, dedupGo_sublist _ _, ?_, ?_⟩
  · intro it hit
    exact (dedupGo_first _ _ it hit).2
  · intro c hc
    rcases dedupGo_covers (todoItemsPre text lang) [] c hc with hseen | hex
    · cases hseen
    · exact hex

/-- Witness for C3 at a concrete input whose two candidates share a
key: the theorem's first-occurrence clause yields the surviving item,
and the output deduplicates to a single item. -/
theorem C3_todo_dedup_witness :
    (extract_todo_items "待办事项：整理会议纪要文档\n待办事项：整理会议纪要文档".data Lang.zh).length = 1
    ∧ (todoItemsPre "待办事项：整理会议纪要文档\n待办事项：整理会议纪要文档".data Lang.zh).length = 2
    ∧ ∀ it ∈ extract_todo_items "待办事项：整理会议纪要文档\n待办事项：整理会议纪要文档".data Lang.zh,
        (todoItemsPre "待办事项：整理会议纪要文档\n待办事项：整理会议纪要文档".data Lang.zh).find?
          (fun c => dedupKey c == dedupKey it) = some it :=
  ⟨by decide, by decide,
    (C3_todo_dedup "待办事项：整理会议纪要文档\n待办事项：整理会议纪要文档".data Lang.zh).2.2.1⟩

/-- C5: the derived priority is 3 (high) whenever some high-priority
keyword occurs case-insensitively in the candidate text — regardless of
co-occurring low-priority keywords; it is 1 (low) when a low-priority
keyword occurs and no high-priority keyword does; otherwise it is 2
(medium). -/
theorem C5_priority (text : Str) (lang : Lang) :
    ((∃ kw ∈ highPriorityKeywords lang, strContains (pyLower text) (pyLower kw)) →
      evaluate_priority text lang = 3)
    ∧ (¬ (∃ kw ∈ highPriorityKeywords lang, strContains (pyLower text) (pyLower kw)) →
        (∃ kw ∈ lowPriorityKeywords lang, strContains (pyLower text) (pyLower kw)) →
        evaluate_priority text lang = 1)
    ∧ (¬ (∃ kw ∈ highPriorityKeywords lang, strContains (pyLower text) (pyLower kw)) →
        ¬ (∃ kw ∈ lowPriorityKeywords lang, strContains (pyLower text) (pyLower kw)) →
        evaluate_priority text lang = 2) := by
  refine ⟨?_, ?_, ?_⟩
  · intro hex
    have hhi : (highPriorityKeywords lang).any
        (fun kw => strContains (pyLower text) (pyLower kw)) = true :=
      List.any_eq_true.mpr hex
    simp [evaluate_priority, hhi]
  · intro hnex hlow
    have hhi : (highPriorityKeywords lang).any
        (fun kw => strContains (pyLower text) (pyLower kw)) = false := by
      cases hx : (highPriorityKeywords lang).any
          (fun kw => strContains (pyLower text) (pyLower kw)) with
      | false => rfl
      | true => exact absurd (List.any_eq_true.mp hx) hnex
    have hlo : (lowPriorityKeywords lang).any
        (fun kw => strContains (pyLower text) (pyLower kw)) = true :=
      List.any_eq_true.mpr hlow
    simp [evaluate_priority, hhi, hlo]
  · intro hnex hnlow
    have hhi : (highPriorityKeywords lang).any
        (fun kw => strContains (pyLower text) (pyLower kw)) = false := by
      cases hx : (highPriorityKeywords lang).any
          (fun kw => strContains (pyLower text) (pyLower kw)) with
      | false => rfl
      | true => exact absurd (List.any_eq_true.mp hx) hnex
    have hlo : (lowPriorityKeywords lang).any
        (fun kw => strContains (pyLower text) (pyLower kw)) = false := by
      cases hx : (lowPriorityKeywords lang).any
          (fun kw => strContains (pyLower text) (pyLower kw)) with
      | false => rfl
      | true => exact absurd (List.any_eq_true.mp hx) hnlow
    simp [evaluate_priority, hhi, hlo]

/-- Witness for C5 at a concrete input containing both a high-priority
and a low-priority keyword: the priority is high. -/
theorem C5_priority_witness :
    (∃ kw ∈ lowPriorityKeywords Lang.en,
        strContains (pyLower "URGENT but optional task".data) (pyLower kw))
    ∧ evaluate_priority "URGENT but optional task".data Lang.en = 3 :=
  ⟨⟨"optional".data, by decide, by decide⟩,
   (C5_priority "URGENT but optional task".data Lang.en).1
     ⟨"urgent".data, by decide, by decide⟩⟩

/-!
### Scenario evaluations (claims C6, C7) and the title bug (claim C9)
-/

/-- Scenario A text of the specification. -/
def scenarioTextA : Str := "需要张三负责完成报告，截止12月30日".data

/-- Scenario B text of the specification. -/
def scenarioTextB : Str := "URGENT: John must submit the report by 2024-12-30.".data

/-- Counterexample to C6: scenario A does not yield exactly one action
item (it yields none — see the amended theorem). -/
theorem C6_counterexample :
    (extract_todo_items scenarioTextA Lang.zh).length ≠ 1 := by decide

/-- C6 (amended): on scenario A the obligation patterns produce the
single candidate description `"张三"` (the lazy group of the first
pattern stops at `负责`), whose length 2 fails the `> 3` filter, so the
extraction returns no action items. -/
theorem C6_amended :
    (((todoPatterns Lang.zh).map
        (fun p => (findallStrs true p scenarioTextA).map candDescription)).join
      = ["张三".data])
    ∧ extract_todo_items scenarioTextA Lang.zh = [] := by
  exact ⟨by decide, by decide⟩

/-- Counterexample to C7: scenario B does not yield exactly one action
item (it yields none — see the amended theorem). -/
theorem C7_counterexample :
    (extract_todo_items scenarioTextB Lang.en).length ≠ 1 := by decide

/-- C7 (amended): on scenario B no obligation pattern matches at all
(`must` is present but never followed by any of the completion words
`complete/handle/solve/follow up/responsible`, and no other pattern's
anchor occurs), so the extraction returns no action items — in
particular no item of high priority. -/
theorem C7_amended :
    (((todoPatterns Lang.en).map
        (fun p => (findallStrs true p scenarioTextB).map candDescription)).join = [])
    ∧ extract_todo_items scenarioTextB Lang.en = [] := by
  exact ⟨by decide, by decide⟩

/-- A sentence of 60 characters containing a time expression, used to
exhibit the unreachable ellipsis branch. -/
def longSentenceC9 : Str := "10:30".data ++ List.replicate 55 '讨'

/-- C9: the ellipsis branch of the timeline title is dead code — the
guard tests the length of the already-50-truncated title, so a sentence
longer than 50 characters yields the bare 50-character prefix with no
trailing ellipsis marker, while the description is the full sentence
(the claim expects an ellipsis marker exactly in this case). -/
theorem C9_title_never_ellipsized :
    extract_timeline_data extDefault longSentenceC9 Lang.zh
      = [{ time := "10:30".data
           event := "10:30".data ++ List.replicate 45 '讨'
           description := longSentenceC9
           sentence_index := 0
           has_time := true }]
    ∧ longSentenceC9.length = 60
    ∧ ("10:30".data ++ List.replicate 45 '讨').length = 50
    ∧ ¬ ("...".data.isSuffixOf ("10:30".data ++ List.replicate 45 '讨')) := by
  exact ⟨by decide, by decide, by decide, by decide⟩

/-!
### Summary fallback (claim C8)
-/

/-- Model of `SummaryGenerator._generate_fallback_summary`: segment the
text into paragraphs (with a processor of the invocation language;
paragraph mode is profile-independent), join all of them with a blank
line when there are at most 3, else join the first 3 and append the
omission marker. -/
def generate_fallback_summary (ext : Ext) (text : Str) (lang : Lang) : Str :=
  let paragraphs := segment_text ext lang text .paragraph
  if paragraphs.length ≤ 3 then
    List.intercalate "\n\n".data paragraphs
  else
    List.intercalate "\n\n".data (paragraphs.take 3) ++ "\n\n...（更多内容省略）".data

/-- Model of `SummaryGenerator._call_deepseek_api`.  The external
generation service is a parameter: `some content` is a successful
response with extracted content; `none` is any failure — timeout,
non-success HTTP status, or a malformed response body (every such case
raises inside the `try` and is caught by the same handler).  A failure
is answered with the deterministic fallback; the function is total, so
no service error reaches the caller. -/
def call_deepseek_api (ext : Ext) (service : Option Str) (text : Str) (lang : Lang) : Str :=
  match service with
  | some content => content
  | none => generate_fallback_summary ext text lang

/-- C8: whenever the service call fails, the engine returns — without
surfacing an error — exactly the first 3 paragraphs (all of them when
fewer) joined with a blank line, with the omission marker appended
precisely when more than 3 paragraphs exist. -/
theorem C8_fallback_deterministic (ext : Ext) (text : Str) (lang : Lang) :
    call_deepseek_api ext none text lang
      = List.intercalate "\n\n".data ((segment_text ext lang text .paragraph).take 3)
        ++ (if 3 < (segment_text ext lang text .paragraph).length
            then "\n\n...（更多内容省略）".data else []) := by
  unfold call_deepseek_api generate_fallback_summary
  by_cases hle : (segment_text ext lang text .paragraph).length ≤ 3
  · rw [if_pos hle, List.take_of_length_le hle, if_neg (by omega)]
    simp
  · rw [if_neg hle, if_pos (by omega)]

/-!
### Python values, JSON serialization and the chart (claim C1)
-/

/-- Python runtime values as far as the result dict is concerned:
strings, ints, floats (exact rationals), booleans, `None`, functions
(the chart's `lambda`), lists and insertion-ordered dicts. -/
inductive PyVal where
  | pstr (s : Str)
  | pint (n : ℤ)
  | prat (q : ℚ)
  | pbool (b : Bool)
  | pnone
  | pfunc
  | plist (l : List PyVal)
  | pdict (d : List (Str × PyVal))

/-- Minimal JSON string escaping (quote and backslash); the exact
escape table of `json.dumps` does not matter to any claim, only
serializability does. -/
def jsonEscape (s : Str) : Str :=
  s.foldr (fun c acc => if c = Char.ofNat 34 ∨ c = '\\' then '\\' :: c :: acc else c :: acc) []

mutual

/-- Model of `json.dumps(..., ensure_ascii=False)`: `none` models the
`TypeError` raised on a value outside the JSON-serializable types —
here a function value.  Whitespace details (`indent=2`) are abstracted;
no claim depends on the rendered text, only on whether rendering
succeeds. -/
def serializeV : PyVal → Option Str
  | .pstr s => some (Char.ofNat 34 :: (jsonEscape s ++ [Char.ofNat 34]))
  | .pint n => some (toString n).data
  | .prat q => some (toString q).data
  | .pbool b => some (if b then "true".data else "false".data)
  | .pnone => some "null".data
  | .pfunc => none
  | .plist l =>
    match serializeList l with
    | some parts => some ('[' :: (List.intercalate ", ".data parts ++ [']']))
    | none => none
  | .pdict d =>
    match serializeFields d with
    | some parts => some (Char.ofNat 123 :: (List.intercalate ", ".data parts ++ [Char.ofNat 125]))
    | none => none

/-- Serialization of list elements, `none` as soon as one fails. -/
def serializeList : List PyVal → Option (List Str)
  | [] => some []
  | v :: rest =>
    match serializeV v, serializeList rest with
    | some sv, some srest => some (sv :: srest)
    | _, _ => none

/-- Serialization of dict entries, `none` as soon as one value fails. -/
def serializeFields : List (Str × PyVal) → Option (List Str)
  | [] => some []
  | (key, v) :: rest =>
    match serializeV v, serializeFields rest with
    | some sv, some srest =>
      some ((Char.ofNat 34 :: (jsonEscape key ++ (Char.ofNat 34 :: (": ".data ++ sv)))) :: srest)
    | _, _ => none

end

/-- A list with an unserializable element does not serialize. -/
theorem serializeList_none_of_mem (l : List PyVal) (v : PyVal)
    (hv : v ∈ l) (hn : serializeV v = none) : serializeList l = none := by
  induction l with
  | nil => cases hv
  | cons a rest ih =>
    rcases List.mem_cons.mp hv with rfl | hmem
    · simp only [serializeList, hn]
    · simp only [serializeList, ih hmem]
      cases serializeV a <;> rfl

/-- A dict with an unserializable field value does not serialize. -/
theorem serializeFields_none_of_mem (d : List (Str × PyVal)) (key : Str) (v : PyVal)
    (hv : (key, v) ∈ d) (hn : serializeV v = none) : serializeFields d = none := by
  induction d with
  | nil => cases hv
  | cons a rest ih =>
    rcases List.mem_cons.mp hv with rfl | hmem
    · simp only [serializeFields, hn]
    · obtain ⟨ka, va⟩ := a
      simp only [serializeFields, ih hmem]
      cases serializeV va <;> rfl

/-- Dict serialization fails when its field list fails. -/
theorem serializeV_pdict_none {d : List (Str × PyVal)} (h : serializeFields d = none) :
    serializeV (.pdict d) = none := by
  simp only [serializeV, h]

/-- List serialization fails when its element list fails. -/
theorem serializeV_plist_none {l : List PyVal} (h : serializeList l = none) :
    serializeV (.plist l) = none := by
  simp only [serializeV, h]

/-- One point of the chart's scatter series, from an enumerated
timeline item (`value` carries the index, the time label, the
100-character description prefix and the explicit/implicit marker;
`symbolSize` is 10 for an explicit time, 6 otherwise). -/
def chartDataPoint (i : Nat) (item : TLItem) : PyVal :=
  .pdict [("name".data, .pstr item.event),
          ("value".data, .plist [.pint i, .pstr item.time,
                                 .pstr (item.description.take 100),
                                 .pstr (if item.has_time then "有具体时间".data
                                        else "无具体时间".data)]),
          ("symbolSize".data, .pint (if item.has_time then 10 else 6))]

/-- The single entry of the chart's `series` list: the scatter series
dict whose `symbolSize` is the Python `lambda val: val[3]` — a function
value, embedded as `pfunc`. -/
def chartSeriesDict (timeline_data : List TLItem) : List (Str × PyVal) :=
  [("type".data, .pstr "scatter".data),
   ("data".data, .plist (timeline_data.enum.map (fun p => chartDataPoint p.1 p.2))),
   ("symbolSize".data, .pfunc),
   ("itemStyle".data, .pdict [("color".data, .pstr "#5470c6".data)]),
   ("emphasis".data, .pdict [("itemStyle".data,
     .pdict [("color".data, .pstr "#ee6666".data)])])]

/-- Model of `TimelineVisualizer.create_timeline_chart`: the ECharts
configuration dict of the source — title keyed by the invocation
language, tooltip, grid, axes, one category per event and one data
point per event, and the scatter series above. -/
def create_timeline_chart (timeline_data : List TLItem) (lang : Lang) : PyVal :=
  let categories := timeline_data.map (fun it => PyVal.pstr it.time)
  .pdict [
    ("title".data, .pdict [
      ("text".data, .pstr (if lang = .zh then "会议时间线".data else "Meeting Timeline".data)),
      ("left".data, .pstr "center".data)]),
    ("tooltip".data, .pdict [
      ("trigger".data, .pstr "item".data),
      ("formatter".data, .pstr "\x7bb\x7d<br/>\x7bc\x7d".data)]),
    ("grid".data, .pdict [
      ("left".data, .pstr "6%".data),
      ("right".data, .pstr "6%".data),
      ("bottom".data, .pstr "3%".data),
      ("containLabel".data, .pbool true)]),
    ("xAxis".data, .pdict [
      ("type".data, .pstr "category".data),
      ("data".data, .plist categories),
      ("axisLabel".data, .pdict [("color".data, .pstr "#666".data)]),
      ("axisLine".data, .pdict [("lineStyle".data, .pdict [("color".data, .pstr "#666".data)])])]),
    ("yAxis".data, .pdict [
      ("type".data, .pstr "value".data),
      ("axisLabel".data, .pdict [("color".data, .pstr "#666".data)]),
      ("axisLine".data, .pdict [("lineStyle".data, .pdict [("color".data, .pstr "#666".data)])])]),
    ("series".data, .plist [.pdict (chartSeriesDict timeline_data)])]

/-- The chart configuration never serializes to JSON: its series dict
contains the `symbolSize` lambda. -/
theorem chart_not_serializable (timeline_data : List TLItem) (lang : Lang) :
    serializeV (create_timeline_chart timeline_data lang) = none := by
  have hseries : serializeV (PyVal.pdict (chartSeriesDict timeline_data)) = none :=
    serializeV_pdict_none
      (serializeFields_none_of_mem (chartSeriesDict timeline_data)
        "symbolSize".data PyVal.pfunc (by simp [chartSeriesDict]) rfl)
  simp only [create_timeline_chart]
  exact serializeV_pdict_none
    (serializeFields_none_of_mem _ "series".data
      (.plist [.pdict (chartSeriesDict timeline_data)])
      (by simp)
      (serializeV_plist_none
        (serializeList_none_of_mem _ (.pdict (chartSeriesDict timeline_data))
          (by simp) hseries)))

/-!
### Pipeline result and canonical export (claims C1 and C10)
-/

/-- Dict encoding of a quality report, as stored in the result
(field order as in the source). -/
def pyOfQuality (q : QualityReport) : PyVal :=
  .pdict [("char_count".data, .pint q.char_count),
          ("word_count".data, .pint q.word_count),
          ("sentence_count".data, .pint q.sentence_count),
          ("paragraph_count".data, .pint q.paragraph_count),
          ("readability_score".data, .prat q.readability_score),
          ("completeness_score".data, .pint q.completeness_score),
          ("language_detected".data, .pstr q.language_detected),
          ("summary".data, .pstr q.summary)]

/-- Dict encoding of an action item, as stored in the result. -/
def pyOfTodo (t : TodoItem) : PyVal :=
  .pdict [("description".data, .pstr t.description),
          ("assignee".data, .pstr t.assignee),
          ("priority".data, .pint t.priority),
          ("due_date".data, match t.due_date with | some d => .pstr d | none => .pnone),
          ("status".data, .pstr t.status),
          ("extracted_from".data, .pstr t.extracted_from)]

/-- Dict encoding of a timeline event, as stored in the result. -/
def pyOfTL (it : TLItem) : PyVal :=
  .pdict [("time".data, .pstr it.time),
          ("event".data, .pstr it.event),
          ("description".data, .pstr it.description),
          ("sentence_index".data, .pint it.sentence_index),
          ("has_time".data, .pbool it.has_time)]

/-- The `PipelineResult` assembled by
`MeetingMinutesAssistant.process_meeting_text` (one field per entry of
the source's result dict; `summary` is the dict returned by
`generate_summary`, whose service-dependent content no claim inspects;
`processing_time` is the `datetime.now().isoformat()` string). -/
structure PipelineResult where
  raw_text_sample : Str
  processed_text_sample : Str
  quality_report : QualityReport
  summary : PyVal
  todo_items : List TodoItem
  timeline_data : List TLItem
  timeline_chart : PyVal
  processing_time : Str
  language : Lang

/-- Model of `MeetingMinutesAssistant.process_meeting_text`.  The
assistant's `__init__` builds `TextProcessor()` with the default
profile `'zh'`, so preprocessing and the quality report always use the
zh processor; the `language` argument reaches only the summary, the
action-item extraction and the timeline.  File parsing is collaborator
I/O, so the raw text is the input; `summaryData` stands for the dict
returned by `generate_summary` (its fallback path is modelled above as
`call_deepseek_api`); `now` is the timestamp. -/
def process_meeting_text (ext : Ext) (summaryData : PyVal) (now : Str) (raw_text : Str)
    (language : Lang) : PipelineResult :=
  let processed_text := preprocess_text .zh raw_text
  let quality_report := evaluate_text_quality ext .zh processed_text
  let todo_items := extract_todo_items processed_text language
  let timeline_data := extract_timeline_data ext processed_text language
  let timeline_chart := create_timeline_chart timeline_data language
  { raw_text_sample := raw_text.take 500
    processed_text_sample := processed_text.take 500
    quality_report := quality_report
    summary := summaryData
    todo_items := todo_items
    timeline_data := timeline_data
    timeline_chart := timeline_chart
    processing_time := now
    language := language }

/-- The result dict of `process_meeting_text`, keys and nesting as in
the source. -/
def pyOfResult (r : PipelineResult) : PyVal :=
  .pdict [
    ("text_processing".data, .pdict [
      ("raw_text_sample".data, .pstr r.raw_text_sample),
      ("processed_text_sample".data, .pstr r.processed_text_sample),
      ("quality_report".data, pyOfQuality r.quality_report)]),
    ("summary".data, r.summary),
    ("todo_items".data, .plist (r.todo_items.map pyOfTodo)),
    ("timeline".data, .pdict [
      ("data".data, .plist (r.timeline_data.map pyOfTL)),
      ("chart_config".data, r.timeline_chart)]),
    ("processing_time".data, .pstr r.processing_time),
    ("language".data, .pstr r.language.str)]

/-- The `'json'` branch of `MeetingMinutesAssistant.export_results`:
`json.dumps(result, ensure_ascii=False, indent=2)`, where `none`
models the `TypeError` the call raises on a non-serializable value.
(The `'markdown'` and `'html'` branches are exercised by no claim.) -/
def export_results_json (result : PipelineResult) : Option Str :=
  serializeV (pyOfResult result)

/-- C1: canonical (JSON) export fails on every result a run can
produce — the chart configuration embedded in each result carries the
`symbolSize` lambda, which `json.dumps` cannot serialize — so no
rendering exists to parse back, and the claimed round-trip fails for
every `PipelineResult`. -/
theorem C1_canonical_export_raises (ext : Ext) (summaryData : PyVal) (now raw : Str)
    (lang : Lang) :
    export_results_json (process_meeting_text ext summaryData now raw lang) = none := by
  unfold export_results_json pyOfResult
  apply serializeV_pdict_none
  apply serializeFields_none_of_mem _ "timeline".data
    (.pdict [
      ("data".data, .plist ((process_meeting_text ext summaryData now raw lang).timeline_data.map pyOfTL)),
      ("chart_config".data, (process_meeting_text ext summaryData now raw lang).timeline_chart)])
    (by simp)
  apply serializeV_pdict_none
  apply serializeFields_none_of_mem _ "chart_config".data
    ((process_meeting_text ext summaryData now raw lang).timeline_chart)
    (by simp)
  exact chart_not_serializable _ _

/-- Readability-relevant invariance of the quality report: it depends
on the externals only through the zh tokenizer. -/
theorem evaluate_zh_ext_inv (ext ext2 : Ext) (t : Str)
    (hj : ext2.hasJieba = ext.hasJieba) (hjj : ext2.jieba = ext.jieba) :
    evaluate_text_quality ext2 Lang.zh t = evaluate_text_quality ext Lang.zh t := by
  unfold evaluate_text_quality tokenize_words segment_text
  rw [hj, hjj]

/-- C10: the quality report of every run is computed with the zh
processor profile — zh character allow-list, zh (jieba) tokenization,
zh sentence segmentation — independent of the run's `language`
argument and of the NLTK externals; consequently its readability score
is the CJK formula `round(clamp(0, 100, 100 - (chars/sentences)/10), 2)`
whenever both counts are positive, also for `language='en'` runs. -/
theorem C10_quality_uses_zh_profile (ext ext2 : Ext) (summaryData summaryData2 : PyVal)
    (now now2 raw : Str) (lang lang2 : Lang)
    (hj : ext2.hasJieba = ext.hasJieba) (hjj : ext2.jieba = ext.jieba) :
    ((process_meeting_text ext summaryData now raw lang).quality_report
        = evaluate_text_quality ext Lang.zh (preprocess_text Lang.zh raw))
    ∧ ((process_meeting_text ext2 summaryData2 now2 raw lang2).quality_report
        = (process_meeting_text ext summaryData now raw lang).quality_report)
    ∧ (0 < (process_meeting_text ext summaryData now raw lang).quality_report.sentence_count →
        0 < (process_meeting_text ext summaryData now raw lang).quality_report.word_count →
        (process_meeting_text ext summaryData now raw lang).quality_report.readability_score
          = pyRound2 (max 0 (min 100 (100 -
              ((((process_meeting_text ext summaryData now raw lang).quality_report.char_count : ℚ) /
                ((process_meeting_text ext summaryData now raw lang).quality_report.sentence_count : ℚ)) / 10))))) := by
  refine ⟨rfl, ?_, ?_⟩
  · show evaluate_text_quality ext2 Lang.zh (preprocess_text Lang.zh raw)
        = evaluate_text_quality ext Lang.zh (preprocess_text Lang.zh raw)
    exact evaluate_zh_ext_inv ext ext2 _ hj hjj
  · intro hsc hwc
    show (evaluate_text_quality ext Lang.zh (preprocess_text Lang.zh raw)).readability_score = _
    unfold evaluate_text_quality
    simp only
    rw [if_pos ⟨hsc, hwc⟩]
    rfl

/-- Witness for C10 at the concrete zh text `"短句。"` run with
`language='en'`: sentence and word counts are positive, and the
readability score equals the CJK formula value. -/
theorem C10_quality_uses_zh_profile_witness :
    (process_meeting_text extDefault PyVal.pnone [] "短句。".data Lang.en).quality_report.readability_score
      = pyRound2 (max 0 (min 100 (100 -
          ((((process_meeting_text extDefault PyVal.pnone [] "短句。".data Lang.en).quality_report.char_count : ℚ) /
            ((process_meeting_text extDefault PyVal.pnone [] "短句。".data Lang.en).quality_report.sentence_count : ℚ)) / 10)))) :=
  (C10_quality_uses_zh_profile extDefault extDefault PyVal.pnone PyVal.pnone [] [] "短句。".data
    Lang.en Lang.en rfl rfl).2.2 (by decide) (by decide)

end MeetingMinutes
